import Mathlib

/-!
Verification of the NBA projections dashboard (`dashboard.py`).

The program is a pandas/streamlit app.  We shallowly embed the parts the
properties speak about:

* a `Cell`/`Table` model of a pandas `DataFrame` (cells are strings,
  rationals standing for Python floats, or `null` standing for `NaN`);
* `calculate_data_hash` — md5 (RFC 1321, implemented below over byte
  lists) of the `to_csv(index=False)` serialization;
* `load_projections_data` / `load_results_data` — file presence is an
  `Option` input, `FileNotFoundError` is the only caught failure, the
  `Confidence` column is coerced via `str.rstrip('%').astype(float)`;
* the process-wide `LAST_UPDATED` state and its refresh logic;
* `calculate_win_loss_summary`;
* the sidebar filter mask of `run_streamlit_app` (lines 119–124) and the
  descending sort by `Confidence` (line 127).

Python floats are modelled by `ℚ`; the numeric rendering inside the CSV
serialization abstracts Python's float `repr` (no theorem below depends
on it).
-/

deriving instance DecidableEq for Except

/-- A pandas cell: a string, a number (Python float, modelled by `ℚ`),
or `null` (pandas `NaN`/`None`). -/
inductive Cell where
  | str (s : String)
  | num (q : ℚ)
  | null
deriving DecidableEq

/-- A pandas `DataFrame`: a header of column names and rows of cells.
Well-formed tables have every row of the same length as the header. -/
structure Table where
  header : List String
  rows : List (List Cell)
deriving DecidableEq

/-- Index of a column name in the header (`data['Name']` raises a
`KeyError` when this is `none`). -/
def colIdx? (header : List String) (name : String) : Option Nat :=
  List.findIdx? (fun h => h == name) header

/-- The cell of a row at a column index (well-formed rows are long
enough; the `null` default is never hit on well-formed tables). -/
def cellAt (r : List Cell) (i : Nat) : Cell :=
  r.getD i Cell.null

/-! ### md5 (RFC 1321), used by `calculate_data_hash` via `hashlib.md5` -/

/-- `2^32`. -/
def M32 : Nat := 4294967296

/-- Addition modulo `2^32`. -/
def add32 (a b : Nat) : Nat := (a + b) % M32

/-- Left rotation of a 32-bit word. -/
def rotl32 (x s : Nat) : Nat :=
  ((x <<< s) + (x >>> (32 - s))) % M32

/-- The md5 round functions F, G, H, I selected by the step index. -/
def md5_f (i b c d : Nat) : Nat :=
  if i < 16 then (b &&& c) ||| ((b ^^^ 4294967295) &&& d)
  else if i < 32 then (d &&& b) ||| ((d ^^^ 4294967295) &&& c)
  else if i < 48 then b ^^^ c ^^^ d
  else c ^^^ (b ||| (d ^^^ 4294967295))

/-- The md5 message-word schedule. -/
def md5_g (i : Nat) : Nat :=
  if i < 16 then i
  else if i < 32 then (5 * i + 1) % 16
  else if i < 48 then (3 * i + 5) % 16
  else (7 * i) % 16

/-- The md5 sine-derived constants. -/
def md5_K : List Nat :=
  [0xd76aa478, 0xe8c7b756, 0x242070db, 0xc1bdceee,
   0xf57c0faf, 0x4787c62a, 0xa8304613, 0xfd469501,
   0x698098d8, 0x8b44f7af, 0xffff5bb1, 0x895cd7be,
   0x6b901122, 0xfd987193, 0xa679438e, 0x49b40821,
   0xf61e2562, 0xc040b340, 0x265e5a51, 0xe9b6c7aa,
   0xd62f105d, 0x02441453, 0xd8a1e681, 0xe7d3fbc8,
   0x21e1cde6, 0xc33707d6, 0xf4d50d87, 0x455a14ed,
   0xa9e3e905, 0xfcefa3f8, 0x676f02d9, 0x8d2a4c8a,
   0xfffa3942, 0x8771f681, 0x6d9d6122, 0xfde5380c,
   0xa4beea44, 0x4bdecfa9, 0xf6bb4b60, 0xbebfbc70,
   0x289b7ec6, 0xeaa127fa, 0xd4ef3085, 0x04881d05,
   0xd9d4d039, 0xe6db99e5, 0x1fa27cf8, 0xc4ac5665,
   0xf4292244, 0x432aff97, 0xab9423a7, 0xfc93a039,
   0x655b59c3, 0x8f0ccc92, 0xffeff47d, 0x85845dd1,
   0x6fa87e4f, 0xfe2ce6e0, 0xa3014314, 0x4e0811a1,
   0xf7537e82, 0xbd3af235, 0x2ad7d2bb, 0xeb86d391]

/-- The md5 per-step rotation amounts. -/
def md5_S : List Nat :=
  [7, 12, 17, 22, 7, 12, 17, 22, 7, 12, 17, 22, 7, 12, 17, 22,
   5, 9, 14, 20, 5, 9, 14, 20, 5, 9, 14, 20, 5, 9, 14, 20,
   4, 11, 16, 23, 4, 11, 16, 23, 4, 11, 16, 23, 4, 11, 16, 23,
   6, 10, 15, 21, 6, 10, 15, 21, 6, 10, 15, 21, 6, 10, 15, 21]

/-- One of the 64 md5 steps on the running state `(a, b, c, d)`. -/
def md5_step (m : List Nat) (st : Nat × Nat × Nat × Nat) (i : Nat) :
    Nat × Nat × Nat × Nat :=
  let a := st.1
  let b := st.2.1
  let c := st.2.2.1
  let d := st.2.2.2
  let f := add32 (add32 (add32 a (md5_f i b c d)) (md5_K.getD i 0))
      (m.getD (md5_g i) 0)
  (d, add32 b (rotl32 f (md5_S.getD i 0)), b, c)

/-- Process one 16-word (64-byte) block. -/
def md5_block (st : Nat × Nat × Nat × Nat) (m : List Nat) :
    Nat × Nat × Nat × Nat :=
  let r := (List.range 64).foldl (md5_step m) st
  (add32 st.1 r.1, add32 st.2.1 r.2.1, add32 st.2.2.1 r.2.2.1,
   add32 st.2.2.2 r.2.2.2)

/-- Bytes to little-endian 32-bit words. -/
def toWords : List Nat → List Nat
  | b0 :: b1 :: b2 :: b3 :: rest =>
      (b0 + 256 * b1 + 65536 * b2 + 16777216 * b3) :: toWords rest
  | _ => []

/-- md5 padding: append `0x80`, zero bytes to 56 mod 64, then the bit
length as 8 little-endian bytes. -/
def md5_pad (msg : List Nat) : List Nat :=
  let len := msg.length
  let zeros := (119 - (len % 64)) % 64
  msg ++ 128 :: List.replicate zeros 0 ++
    (List.range 8).map (fun i => ((8 * len) >>> (8 * i)) % 256)

/-- Split a word list into 16-word chunks. -/
def chunk16 (ws : List Nat) : List (List Nat) :=
  match ws with
  | [] => []
  | w :: rest => ((w :: rest).take 16) :: chunk16 (rest.drop 15)
termination_by ws.length
decreasing_by simp [List.length_drop]; omega

/-- The md5 initial state. -/
def md5_init : Nat × Nat × Nat × Nat :=
  (0x67452301, 0xefcdab89, 0x98badcfe, 0x10325476)

/-- A lowercase hex digit. -/
def hexChar (n : Nat) : Char :=
  if n < 10 then Char.ofNat (48 + n) else Char.ofNat (87 + n)

/-- A byte as two lowercase hex characters. -/
def byteHex (b : Nat) : String :=
  String.mk [hexChar (b / 16), hexChar (b % 16)]

/-- A 32-bit word as hex, little-endian byte order (as in `hexdigest`). -/
def wordHexLE (w : Nat) : String :=
  byteHex (w % 256) ++ byteHex ((w >>> 8) % 256) ++
    byteHex ((w >>> 16) % 256) ++ byteHex ((w >>> 24) % 256)

/-- md5 of a byte list, as the 32-character lowercase hex digest. -/
def md5_hex (msg : List Nat) : String :=
  let st := (chunk16 (toWords (md5_pad msg))).foldl md5_block md5_init
  wordHexLE st.1 ++ wordHexLE st.2.1 ++ wordHexLE st.2.2.1 ++
    wordHexLE st.2.2.2

/-- UTF-8 bytes of a string (`str.encode()`). -/
def strBytes (s : String) : List Nat :=
  s.toUTF8.toList.map UInt8.toNat

/-! ### `to_csv(index=False)` serialization and `calculate_data_hash` -/

/-- CSV field quoting: a field holding a comma, quote or line break is
wrapped in double quotes with inner quotes doubled. -/
def csv_escape (s : String) : String :=
  if s.toList.any (fun c => c == ',' || c == '"' || c == '\n' || c == '\r')
  then String.mk ('"' :: s.toList.foldr
        (fun c acc => if c == '"' then '"' :: '"' :: acc else c :: acc)
        ['"'])
  else s

/-- A cell rendered as a CSV field.  `null` renders empty like pandas
`NaN`; the numeric rendering stands in for Python's float `repr` (no
theorem depends on it). -/
def cell_csv : Cell → String
  | Cell.str s => csv_escape s
  | Cell.num q => toString q
  | Cell.null => ""

/-- A row rendered as a comma-separated CSV line. -/
def row_csv (r : List Cell) : String :=
  String.intercalate "," (r.map cell_csv)

/-- `data.to_csv(index=False)`: the header line followed by one line per
row, newline-terminated. -/
def data_string (t : Table) : String :=
  String.intercalate "\n"
    (String.intercalate "," (t.header.map csv_escape) :: t.rows.map row_csv)
    ++ "\n"

/-- `calculate_data_hash` (dashboard.py lines 21–23):
`hashlib.md5(data.to_csv(index=False).encode()).hexdigest()`. -/
def calculate_data_hash (data : Table) : String :=
  md5_hex (strBytes (data_string data))

/-! ### The `LAST_UPDATED` freshness state and the refresh logic -/

/-- The process-wide `LAST_UPDATED` dict: `{"hash": None, "timestamp": None}`
initially. -/
structure FreshnessState where
  hash : Option String
  timestamp : Option String
deriving DecidableEq

/-- The refresh logic of `load_projections_data` (dashboard.py lines
41–49): hash the (already coerced) table; if the stored hash differs,
store the new hash and the current formatted time; return the stored
timestamp.  The wall clock reading `now` is an explicit input. -/
def refresh_timestamp (data : Table) (now : String) (st : FreshnessState) :
    Option String × FreshnessState :=
  let current_hash := calculate_data_hash data
  if st.hash ≠ some current_hash then
    (some now, { hash := some current_hash, timestamp := some now })
  else
    (st.timestamp, st)

/-! ### The `Confidence` coercion and the two loaders -/

/-- Leading digits of a character list, as digit values, plus the rest. -/
def takeDigits : List Char → List Nat × List Char
  | [] => ([], [])
  | c :: cs =>
    if c.isDigit then
      let p := takeDigits cs
      ((c.toNat - 48) :: p.1, p.2)
    else ([], c :: cs)

/-- Value of a digit list read in base 10. -/
def digitsVal (ds : List Nat) : Nat :=
  ds.foldl (fun a d => 10 * a + d) 0

/-- Parse a decimal literal with optional sign, fractional part and
exponent — the grammar Python's `float()` accepts for finite decimal
input (`inf`/`nan` spellings are omitted: they never arise from the
percentage data this loader coerces). -/
def parseFloatCore (cs0 : List Char) : Option ℚ :=
  let p0 : ℚ × List Char :=
    match cs0 with
    | '-' :: t => (-1, t)
    | '+' :: t => (1, t)
    | _ => (1, cs0)
  let sgn := p0.1
  let p1 := takeDigits p0.2
  let ipart := p1.1
  let p2 : List Nat × List Char :=
    match p1.2 with
    | '.' :: t => takeDigits t
    | _ => ([], p1.2)
  let fpart := p2.1
  if ipart.isEmpty && fpart.isEmpty then none
  else
    let mant : ℚ :=
      sgn * ((digitsVal ipart : ℚ) + (digitsVal fpart : ℚ) / (10 : ℚ) ^ fpart.length)
    match p2.2 with
    | [] => some mant
    | e :: t =>
      if e == 'e' || e == 'E' then
        let p3 : Bool × List Char :=
          match t with
          | '-' :: t2 => (true, t2)
          | '+' :: t2 => (false, t2)
          | _ => (false, t)
        let p4 := takeDigits p3.2
        if p4.1.isEmpty || !p4.2.isEmpty then none
        else some (mant * (if p3.1 then 1 / (10 : ℚ) ^ digitsVal p4.1
                           else (10 : ℚ) ^ digitsVal p4.1))
      else none

/-- `float(s)`: surrounding whitespace is ignored; failure is `none`. -/
def parseFloat? (s : String) : Option ℚ :=
  parseFloatCore
    (((s.toList.dropWhile Char.isWhitespace).reverse.dropWhile
      Char.isWhitespace).reverse)

/-- `str.rstrip('%')`: remove every trailing `'%'` character. -/
def rstripPercent (s : String) : String :=
  String.mk ((s.toList.reverse.dropWhile (fun c => c == '%')).reverse)

/-- One `Confidence` cell under `.str.rstrip('%').astype(float)`:
string cells are stripped and parsed (an unparseable remainder is the
uncaught `ValueError`), `null` stays `null` (`float(NaN) = NaN`), and a
numeric cell passes through. -/
def coerce_cell : Cell → Except Unit Cell
  | Cell.str s =>
    match parseFloat? (rstripPercent s) with
    | some q => Except.ok (Cell.num q)
    | none => Except.error ()
  | Cell.null => Except.ok Cell.null
  | Cell.num q => Except.ok (Cell.num q)

/-- Coerce the cell at column index `i` of one row, keeping the rest. -/
def coerce_row : Nat → List Cell → Except Unit (List Cell)
  | _, [] => Except.ok []
  | 0, c :: cs =>
    match coerce_cell c with
    | Except.ok c2 => Except.ok (c2 :: cs)
    | Except.error e => Except.error e
  | n + 1, c :: cs =>
    match coerce_row n cs with
    | Except.ok cs2 => Except.ok (c :: cs2)
    | Except.error e => Except.error e

/-- Coerce the cell at column index `i` of every row. -/
def coerce_rows (i : Nat) : List (List Cell) → Except Unit (List (List Cell))
  | [] => Except.ok []
  | r :: rs =>
    match coerce_row i r with
    | Except.ok r2 =>
      match coerce_rows i rs with
      | Except.ok rs2 => Except.ok (r2 :: rs2)
      | Except.error e => Except.error e
    | Except.error e => Except.error e

/-- The `Confidence` coercion of `load_projections_data` (dashboard.py
lines 34–39): if a column named `Confidence` exists, strip trailing `%`
and convert to float there; otherwise the table is untouched. -/
def coerce_confidence (t : Table) : Except Unit Table :=
  match colIdx? t.header "Confidence" with
  | none => Except.ok t
  | some i =>
    match coerce_rows i t.rows with
    | Except.ok rs => Except.ok { header := t.header, rows := rs }
    | Except.error e => Except.error e

/-- `load_projections_data` (dashboard.py lines 27–52).  The file system
is the `Option Table` input (`none` is `FileNotFoundError`, the only
caught exception: it yields an empty frame, a `None` timestamp — the
not-present signal the caller surfaces as a warning — and an untouched
state).  A present file is coerced, hashed, and the freshness state
refreshed; a coercion failure is the uncaught `ValueError`
(`Except.error`). -/
def load_projections_data (input : Option Table) (now : String)
    (st : FreshnessState) :
    Except Unit ((Table × Option String) × FreshnessState) :=
  match input with
  | none => Except.ok ((⟨[], []⟩, none), st)
  | some data =>
    match coerce_confidence data with
    | Except.error e => Except.error e
    | Except.ok data2 =>
      let r := refresh_timestamp data2 now st
      Except.ok ((data2, r.1), r.2)

/-- `load_results_data` (dashboard.py lines 55–61): a missing file
(`none`) yields an empty frame (the caller's not-present signal); a
present file is returned as read. -/
def load_results_data (input : Option Table) : Table :=
  match input with
  | none => ⟨[], []⟩
  | some data => data

/-! ### `calculate_win_loss_summary` -/

/-- The summary dict returned by `calculate_win_loss_summary`. -/
structure Summary where
  wins : Nat
  losses : Nat
  pushes : Nat
  winPct : ℚ
deriving DecidableEq

/-- `calculate_win_loss_summary` (dashboard.py lines 64–80): `None` on
an empty frame; otherwise count `Result == 'Win' / 'Loss' / 'Push'`
(elementwise string equality: a `null` or numeric cell compares
unequal, as pandas `==` does) and compute `(wins / total) * 100`,
`0` when the total is `0`.  A missing `Result` column is the uncaught
`KeyError` (`Except.error`). -/
def calculate_win_loss_summary (results_data : Table) :
    Except Unit (Option Summary) :=
  if results_data.rows.isEmpty then Except.ok none
  else
    match colIdx? results_data.header "Result" with
    | none => Except.error ()
    | some i =>
      let resultCol := results_data.rows.map (fun r => cellAt r i)
      let win_count := resultCol.countP (fun c => c == Cell.str "Win")
      let loss_count := resultCol.countP (fun c => c == Cell.str "Loss")
      let push_count := resultCol.countP (fun c => c == Cell.str "Push")
      let total := win_count + loss_count + push_count
      let win_percentage : ℚ :=
        if total > 0 then ((win_count : ℚ) / (total : ℚ)) * 100 else 0
      Except.ok (some ⟨win_count, loss_count, push_count, win_percentage⟩)

/-! ### The sidebar filter (dashboard.py lines 119–124) and sort (127)

`Series.str.contains(pat, case=False, na=False)` interprets `pat` as a
Python regular expression (`regex=True` default) and tests
`re.search(pat, value, re.IGNORECASE)`; an invalid pattern raises an
uncaught `re.error`.  The engine below embeds that behaviour for the
standard construct set: literals, `.`, `^`, `$`, character classes with
ranges and negation, `\d \D \w \W \s \S \b \B \A \Z`, literal escapes
(`\n \t \r \f \v \a \xhh` and escaped punctuation), `* + ?`, brace
quantifiers (a brace that does not parse as a quantifier stays a
literal, as in Python), lazy markers (`*?` etc., which cannot change
whether a match exists), alternation and groups — with Python's
`re.error` cases (unbalanced parentheses, unterminated or bad-range
classes, nothing to repeat, multiple repeat, min greater than max,
trailing or unknown-letter escapes) modelled as the error result.
Outside the modelled subset and mapped to the error result as well:
`(?...)` extensions, backreferences and octal/`\u`/`\N` escapes, and
the possessive quantifiers of Python 3.11+.  Character predicates are
ASCII-scoped (`Char.isDigit` etc.) and `IGNORECASE` is modelled by
case-folding single characters, the precision the claims need. -/

/-- An item of a character class `[...]`. -/
inductive ClsItem where
  | one (c : Char)
  | range (lo hi : Char)
  | digits
  | ndigits
  | word
  | nword
  | space
  | nspace
deriving DecidableEq

/-- Abstract syntax of the modelled regular-expression subset. -/
inductive Regex where
  | eps
  | char (c : Char)
  | any
  | cls (neg : Bool) (items : List ClsItem)
  | star (r : Regex)
  | cat (r1 r2 : Regex)
  | alt (r1 r2 : Regex)
  | bol
  | eol
  | eos
  | wordb (neg : Bool)
deriving DecidableEq

/-- `\w`: letters, digits and underscore (ASCII scope). -/
def isWordChar (c : Char) : Bool := c.isAlphanum || c == '_'

/-- One class item against one input character, `IGNORECASE` folded. -/
def itemMatch (it : ClsItem) (x : Char) : Bool :=
  match it with
  | ClsItem.one d => x.toLower == d.toLower
  | ClsItem.range lo hi =>
    (decide (lo ≤ x) && decide (x ≤ hi)) ||
      (decide (lo ≤ x.toLower) && decide (x.toLower ≤ hi)) ||
      (decide (lo ≤ x.toUpper) && decide (x.toUpper ≤ hi))
  | ClsItem.digits => x.isDigit
  | ClsItem.ndigits => !x.isDigit
  | ClsItem.word => isWordChar x
  | ClsItem.nword => !(isWordChar x)
  | ClsItem.space => x.isWhitespace
  | ClsItem.nspace => !x.isWhitespace

/-- A whole class (possibly negated) against one character. -/
def clsMatch (neg : Bool) (items : List ClsItem) (x : Char) : Bool :=
  neg != items.any (fun it => itemMatch it x)

/-- Positions reachable by iterating a star body zero or more times
from `i`; iterations that consume nothing are cut (they reach nothing
new), so the fuel bounds the advancing iterations. -/
def starIter (step : Nat → List Nat) : Nat → Nat → List Nat
  | 0, i => [i]
  | f + 1, i =>
    i :: ((step i).filter (fun j => i < j)).flatMap (fun j => starIter step f j)

/-- All end positions `j` such that the regex matches `s` between
positions `i` and `j`.  Only match existence matters to a Boolean
`re.search`, so greedy/lazy order is irrelevant; the fuel bounds star
unrolling and `s.length + 1` is enough since every counted star
iteration advances. -/
def ends (fuel : Nat) : Regex → List Char → Nat → List Nat
  | Regex.eps, _, i => [i]
  | Regex.char c, s, i =>
    (match s[i]? with
     | some x => if x.toLower == c.toLower then [i + 1] else []
     | none => [])
  | Regex.any, s, i =>
    (match s[i]? with
     | some x => if x == '\n' then [] else [i + 1]
     | none => [])
  | Regex.cls neg items, s, i =>
    (match s[i]? with
     | some x => if clsMatch neg items x then [i + 1] else []
     | none => [])
  | Regex.bol, _, i => if i == 0 then [i] else []
  | Regex.eol, s, i =>
    if i == s.length || (i + 1 == s.length && s[i]? == some '\n') then [i]
    else []
  | Regex.eos, s, i => if i == s.length then [i] else []
  | Regex.wordb neg, s, i =>
    let pw := if i == 0 then false else
      match s[i - 1]? with
      | some x => isWordChar x
      | none => false
    let nw :=
      match s[i]? with
      | some x => isWordChar x
      | none => false
    if (pw != nw) == !neg then [i] else []
  | Regex.cat r1 r2, s, i =>
    (ends fuel r1 s i).flatMap (fun j => ends fuel r2 s j)
  | Regex.alt r1 r2, s, i => ends fuel r1 s i ++ ends fuel r2 s i
  | Regex.star r1, s, i => starIter (fun j => ends fuel r1 s j) fuel i

/-- `re.search` as a Boolean: a match starting at some position. -/
def regexSearch (r : Regex) (s : List Char) : Bool :=
  (List.range (s.length + 1)).any (fun i => !(ends (s.length + 1) r s i).isEmpty)

/-- Value of a hex digit, `none` otherwise. -/
def hexDigitVal? (c : Char) : Option Nat :=
  if c.isDigit then some (c.toNat - 48)
  else if 'a' ≤ c ∧ c ≤ 'f' then some (c.toNat - 87)
  else if 'A' ≤ c ∧ c ≤ 'F' then some (c.toNat - 55)
  else none

/-- An escape outside a class, after the backslash. -/
def mainEscape (cs : List Char) : Except Unit (Regex × List Char) :=
  match cs with
  | [] => Except.error ()
  | e :: rest =>
    if e == 'd' then Except.ok (Regex.cls false [ClsItem.digits], rest)
    else if e == 'D' then Except.ok (Regex.cls false [ClsItem.ndigits], rest)
    else if e == 'w' then Except.ok (Regex.cls false [ClsItem.word], rest)
    else if e == 'W' then Except.ok (Regex.cls false [ClsItem.nword], rest)
    else if e == 's' then Except.ok (Regex.cls false [ClsItem.space], rest)
    else if e == 'S' then Except.ok (Regex.cls false [ClsItem.nspace], rest)
    else if e == 'b' then Except.ok (Regex.wordb false, rest)
    else if e == 'B' then Except.ok (Regex.wordb true, rest)
    else if e == 'A' then Except.ok (Regex.bol, rest)
    else if e == 'Z' then Except.ok (Regex.eos, rest)
    else if e == 'n' then Except.ok (Regex.char '\n', rest)
    else if e == 't' then Except.ok (Regex.char '\t', rest)
    else if e == 'r' then Except.ok (Regex.char '\r', rest)
    else if e == 'f' then Except.ok (Regex.char '\x0c', rest)
    else if e == 'v' then Except.ok (Regex.char '\x0b', rest)
    else if e == 'a' then Except.ok (Regex.char '\x07', rest)
    else if e == 'x' then
      match rest with
      | h1 :: h2 :: rest2 =>
        match hexDigitVal? h1, hexDigitVal? h2 with
        | some v1, some v2 =>
          Except.ok (Regex.char (Char.ofNat (16 * v1 + v2)), rest2)
        | _, _ => Except.error ()
      | _ => Except.error ()
    else if e.isAlpha || e.isDigit then Except.error ()
    else Except.ok (Regex.char e, rest)

/-- One element of a class body: a literal character (usable as a range
endpoint) or a set escape. -/
inductive ClsElem where
  | lit (c : Char)
  | set (it : ClsItem)
deriving DecidableEq

/-- Read one class element, handling in-class escapes (`\b` is the
backspace character inside a class). -/
def readClsElem (cs : List Char) : Except Unit (ClsElem × List Char) :=
  match cs with
  | [] => Except.error ()
  | c :: rest =>
    if c == '\\' then
      match rest with
      | [] => Except.error ()
      | e :: rest2 =>
        if e == 'd' then Except.ok (ClsElem.set ClsItem.digits, rest2)
        else if e == 'D' then Except.ok (ClsElem.set ClsItem.ndigits, rest2)
        else if e == 'w' then Except.ok (ClsElem.set ClsItem.word, rest2)
        else if e == 'W' then Except.ok (ClsElem.set ClsItem.nword, rest2)
        else if e == 's' then Except.ok (ClsElem.set ClsItem.space, rest2)
        else if e == 'S' then Except.ok (ClsElem.set ClsItem.nspace, rest2)
        else if e == 'n' then Except.ok (ClsElem.lit '\n', rest2)
        else if e == 't' then Except.ok (ClsElem.lit '\t', rest2)
        else if e == 'r' then Except.ok (ClsElem.lit '\r', rest2)
        else if e == 'f' then Except.ok (ClsElem.lit '\x0c', rest2)
        else if e == 'v' then Except.ok (ClsElem.lit '\x0b', rest2)
        else if e == 'a' then Except.ok (ClsElem.lit '\x07', rest2)
        else if e == 'b' then Except.ok (ClsElem.lit '\x08', rest2)
        else if e == 'x' then
          match rest2 with
          | h1 :: h2 :: rest3 =>
            match hexDigitVal? h1, hexDigitVal? h2 with
            | some v1, some v2 =>
              Except.ok (ClsElem.lit (Char.ofNat (16 * v1 + v2)), rest3)
            | _, _ => Except.error ()
          | _ => Except.error ()
        else if e.isAlpha || e.isDigit then Except.error ()
        else Except.ok (ClsElem.lit e, rest2)
    else Except.ok (ClsElem.lit c, rest)

/-- Parse a class body up to the closing `]`.  A `]` in first position
is a literal member; an unterminated class or a bad range is
`re.error`. -/
def parseClsBody (fuel : Nat) (cs : List Char) (first : Bool)
    (acc : List ClsItem) : Except Unit (List ClsItem × List Char) :=
  match fuel with
  | 0 => Except.error ()
  | fuel + 1 =>
    match cs with
    | [] => Except.error ()
    | c :: rest =>
      if c == ']' && !first then Except.ok (acc.reverse, rest)
      else
        match readClsElem (c :: rest) with
        | Except.error e => Except.error e
        | Except.ok (el, rest2) =>
          match rest2 with
          | '-' :: d :: rest3 =>
            if d == ']' then
              match el with
              | ClsElem.lit x =>
                parseClsBody fuel (']' :: rest3) false
                  (ClsItem.one '-' :: ClsItem.one x :: acc)
              | ClsElem.set it =>
                parseClsBody fuel (']' :: rest3) false
                  (ClsItem.one '-' :: it :: acc)
            else
              match el with
              | ClsElem.lit x =>
                (match readClsElem (d :: rest3) with
                 | Except.error e => Except.error e
                 | Except.ok (el2, rest4) =>
                   match el2 with
                   | ClsElem.lit y =>
                     if x ≤ y then
                       parseClsBody fuel rest4 false (ClsItem.range x y :: acc)
                     else Except.error ()
                   | ClsElem.set _ => Except.error ())
              | ClsElem.set _ => Except.error ()
          | ['-'] => Except.error ()
          | _ =>
            match el with
            | ClsElem.lit x => parseClsBody fuel rest2 false (ClsItem.one x :: acc)
            | ClsElem.set it => parseClsBody fuel rest2 false (it :: acc)

/-- Parse a class after the opening `[` (leading `^` negates). -/
def parseClass (cs : List Char) : Except Unit (Regex × List Char) :=
  match cs with
  | '^' :: rest =>
    match parseClsBody (rest.length + 1) rest true [] with
    | Except.ok (items, rest2) => Except.ok (Regex.cls true items, rest2)
    | Except.error e => Except.error e
  | _ =>
    match parseClsBody (cs.length + 1) cs true [] with
    | Except.ok (items, rest2) => Except.ok (Regex.cls false items, rest2)
    | Except.error e => Except.error e

/-- Try to read `{m}`, `{m,}`, `{m,n}` or `{,n}` after the opening
brace; `none` means the brace is not a quantifier and stays literal. -/
def parseBrace (cs : List Char) :
    Option (Nat × Option (Option Nat) × List Char) :=
  let p1 := takeDigits cs
  match p1.2 with
  | '}' :: rest2 =>
    if p1.1.isEmpty then none else some (digitsVal p1.1, none, rest2)
  | ',' :: rest2 =>
    let p2 := takeDigits rest2
    (match p2.2 with
     | '}' :: rest3 =>
       if p1.1.isEmpty && p2.1.isEmpty then none
       else
         some (digitsVal p1.1,
           some (if p2.1.isEmpty then none else some (digitsVal p2.1)), rest3)
     | _ => none)
  | _ => none

/-- Whether a brace body parses as a quantifier. -/
def validBrace (cs : List Char) : Bool :=
  match parseBrace cs with
  | some _ => true
  | none => false

/-- `r` repeated exactly `n` times. -/
def repN : Nat → Regex → Regex
  | 0, _ => Regex.eps
  | n + 1, r => Regex.cat r (repN n r)

/-- `r` repeated at most `n` times. -/
def optN : Nat → Regex → Regex
  | 0, _ => Regex.eps
  | n + 1, r => Regex.alt Regex.eps (Regex.cat r (optN n r))

/-- After a quantifier: one optional lazy `?` (same match existence); a
further quantifier is the `multiple repeat` error. -/
def quantTail (r : Regex) (rest : List Char) : Except Unit (Regex × List Char) :=
  match rest with
  | [] => Except.ok (r, [])
  | q :: rest2 =>
    if q == '?' then
      match rest2 with
      | [] => Except.ok (r, [])
      | q2 :: rest3 =>
        if q2 == '*' || q2 == '+' || q2 == '?' then Except.error ()
        else if q2 == '{' && validBrace rest3 then Except.error ()
        else Except.ok (r, q2 :: rest3)
    else if q == '*' || q == '+' then Except.error ()
    else if q == '{' && validBrace rest2 then Except.error ()
    else Except.ok (r, q :: rest2)

/-- Apply an optional quantifier following a parsed atom. -/
def afterQuant (r : Regex) (rest : List Char) : Except Unit (Regex × List Char) :=
  match rest with
  | [] => Except.ok (r, [])
  | q :: rest2 =>
    if q == '*' then quantTail (Regex.star r) rest2
    else if q == '+' then quantTail (Regex.cat r (Regex.star r)) rest2
    else if q == '?' then quantTail (Regex.alt r Regex.eps) rest2
    else if q == '{' then
      match parseBrace rest2 with
      | some (m, bnd, rest3) =>
        (match bnd with
         | none => quantTail (repN m r) rest3
         | some none => quantTail (Regex.cat (repN m r) (Regex.star r)) rest3
         | some (some n) =>
           if m ≤ n then
             quantTail (Regex.cat (repN m r) (optN (n - m) r)) rest3
           else Except.error ())
      | none => Except.ok (r, q :: rest2)
    else Except.ok (r, q :: rest2)

mutual

/-- Parse one atom: group, class, `.`, anchors, escape, or a literal
character (`{`, `}` and `]` are literal at atom position, as in
Python; a bare `*`, `+` or `?` is the `nothing to repeat` error). -/
def parseAtom (fuel depth : Nat) (cs : List Char) :
    Except Unit (Regex × List Char) :=
  match fuel with
  | 0 => Except.error ()
  | fuel + 1 =>
    match cs with
    | [] => Except.error ()
    | c :: rest =>
      if c == '(' then
        match rest with
        | '?' :: _ => Except.error ()
        | _ =>
          match parseAlt fuel (depth + 1) rest with
          | Except.error e => Except.error e
          | Except.ok (r, rest2) =>
            match rest2 with
            | ')' :: rest3 => Except.ok (r, rest3)
            | _ => Except.error ()
      else if c == '[' then parseClass rest
      else if c == '.' then Except.ok (Regex.any, rest)
      else if c == '^' then Except.ok (Regex.bol, rest)
      else if c == '$' then Except.ok (Regex.eol, rest)
      else if c == '\\' then mainEscape rest
      else if c == '*' || c == '+' || c == '?' then Except.error ()
      else Except.ok (Regex.char c, rest)

/-- Parse a quantified-atom sequence, stopping at `)` or `|`. -/
def parseSeq (fuel depth : Nat) (cs : List Char) (acc : Regex) :
    Except Unit (Regex × List Char) :=
  match fuel with
  | 0 => Except.error ()
  | fuel + 1 =>
    match cs with
    | [] => Except.ok (acc, [])
    | c :: rest =>
      if c == ')' || c == '|' then Except.ok (acc, c :: rest)
      else
        match parseAtom fuel depth (c :: rest) with
        | Except.error e => Except.error e
        | Except.ok (r, rest2) =>
          match afterQuant r rest2 with
          | Except.error e => Except.error e
          | Except.ok (r2, rest3) => parseSeq fuel depth rest3 (Regex.cat acc r2)

/-- Parse alternatives separated by `|`. -/
def parseAlt (fuel depth : Nat) (cs : List Char) :
    Except Unit (Regex × List Char) :=
  match fuel with
  | 0 => Except.error ()
  | fuel + 1 =>
    match parseSeq fuel depth cs Regex.eps with
    | Except.error e => Except.error e
    | Except.ok (r, rest) =>
      match rest with
      | '|' :: rest2 =>
        (match parseAlt fuel depth rest2 with
         | Except.error e => Except.error e
         | Except.ok (r2, rest3) => Except.ok (Regex.alt r r2, rest3))
      | _ => Except.ok (r, rest)

end

/-- `re.compile(pat)`: the error result is `re.error`.  Fuel
`3 * length + 4` covers the call depth (each consumed character costs
at most three nested calls, for `(`). -/
def compileRegex (pat : String) : Except Unit Regex :=
  match parseAlt (3 * pat.toList.length + 4) 0 pat.toList with
  | Except.ok (r, []) => Except.ok r
  | Except.ok (_, _ :: _) => Except.error ()
  | Except.error e => Except.error e

/-- `startsWith_chars hay pat`: `pat` heads `hay`. -/
def startsWith_chars : List Char → List Char → Bool
  | _, [] => true
  | [], _ :: _ => false
  | c :: cs, d :: ds => c == d && startsWith_chars cs ds

/-- `hasSubstr hay pat`: `pat` occurs contiguously inside `hay` (the
empty pattern always occurs). -/
def hasSubstr : List Char → List Char → Bool
  | [], pat => pat.isEmpty
  | c :: t, pat => startsWith_chars (c :: t) pat || hasSubstr t pat

/-- Case-insensitive substring containment — the notion the spec's
"contains the search substring" wording denotes.  The theorems below
prove that on patterns free of regex metacharacters the program's
regex search coincides with it. -/
def containsCI (s pat : String) : Bool :=
  hasSubstr (s.toList.map Char.toLower) (pat.toList.map Char.toLower)

/-- The regex metacharacters of Python's `re`. -/
def metaChars : List Char :=
  ['.', '^', '$', '*', '+', '?', '{', '}', '[', ']', '\\', '|', '(', ')']

/-- A character that stands for itself in a pattern. -/
def isLiteralChar (c : Char) : Bool := !(metaChars.contains c)

/-- A pattern that is literal text (no metacharacters). -/
def isLiteralPat (p : String) : Bool := p.toList.all isLiteralChar

/-- End position of a case-folded literal character sequence matched
from position `i` (the denotation a literal pattern compiles to). -/
def litEnd : List Char → List Char → Nat → Option Nat
  | [], _, i => some i
  | c :: cs, s, i =>
    match s[i]? with
    | some x => if x.toLower == c.toLower then litEnd cs s (i + 1) else none
    | none => none

/-- The mask of `data['Player Name'].str.contains(pf, case=False,
na=False)` for the compiled pattern: `na=False` sends a `null` (and
any non-string, which the `.str` accessor turns into `NaN`) to
`False` — whatever the pattern. -/
def str_contains_mask (cells : List Cell) (rgx : Regex) : List Bool :=
  cells.map (fun c =>
    match c with
    | Cell.str s => regexSearch rgx s.toList
    | _ => false)

/-- The mask of `Series.isin(allowed)` (cell equality; a `null` matches
a `null` listed in `allowed`, as pandas `isin` matches `NaN`). -/
def isin_mask (cells : List Cell) (allowed : List Cell) : List Bool :=
  cells.map (fun c => allowed.contains c)

/-- The mask of `Series.between(lo, hi)` (inclusive on both ends; a
non-numeric cell compares `False`). -/
def between_mask (cells : List Cell) (lo hi : ℚ) : List Bool :=
  cells.map (fun c =>
    match c with
    | Cell.num q => decide (lo ≤ q) && decide (q ≤ hi)
    | _ => false)

/-- Pointwise `&` of two boolean masks. -/
def andMask (m1 m2 : List Bool) : List Bool :=
  List.zipWith (fun a b => a && b) m1 m2

/-- Boolean-mask row selection `data[mask]`. -/
def selectRows {α : Type} (xs : List α) (mask : List Bool) : List α :=
  ((xs.zip mask).filter (fun p => p.2)).map (fun p => p.1)

/-- The column of cells at index `i`. -/
def colCells (t : Table) (i : Nat) : List Cell :=
  t.rows.map (fun r => cellAt r i)

/-- The filter of `run_streamlit_app` (dashboard.py lines 119–124): the
four masks — name regex-contains, `Metric.isin`, `Bookmaker.isin`,
`Confidence.between` — combined with `&` and applied as a boolean
index.  A missing column is the uncaught `KeyError`, and an invalid
search pattern is the uncaught `re.error` of `str.contains`; both
uncaught exceptions are the error result. -/
def apply_filters (projections_data : Table) (player_filter : String)
    (metric_filter sportsbook_filter : List Cell) (lo hi : ℚ) :
    Except Unit (List (List Cell)) :=
  match colIdx? projections_data.header "Player Name",
        colIdx? projections_data.header "Metric",
        colIdx? projections_data.header "Bookmaker",
        colIdx? projections_data.header "Confidence" with
  | some i, some j, some k, some m =>
    match compileRegex player_filter with
    | Except.error e => Except.error e
    | Except.ok rgx =>
      let m1 := str_contains_mask (colCells projections_data i) rgx
      let m2 := isin_mask (colCells projections_data j) metric_filter
      let m3 := isin_mask (colCells projections_data k) sportsbook_filter
      let m4 := between_mask (colCells projections_data m) lo hi
      Except.ok (selectRows projections_data.rows
        (andMask (andMask (andMask m1 m2) m3) m4))
  | _, _, _, _ => Except.error ()

/-- Row comparison of `sort_values(by="Confidence", ascending=False)`:
larger confidence first, non-numeric (`NaN`) last.  The source leaves
the order of ties to the default (unstable) quicksort of the library;
this executable model fixes one order, and no theorem below depends on
how ties come out. -/
def conf_le_desc (m : Nat) (r1 r2 : List Cell) : Bool :=
  match cellAt r1 m, cellAt r2 m with
  | Cell.num a, Cell.num b => decide (b ≤ a)
  | Cell.num _, _ => true
  | _, Cell.num _ => false
  | _, _ => true

/-- Insertion into a sorted list, by a boolean comparison. -/
def insert_by {α : Type} (le : α → α → Bool) (x : α) : List α → List α
  | [] => [x]
  | y :: ys => if le x y then x :: y :: ys else y :: insert_by le x ys

/-- Insertion sort by a boolean comparison. -/
def sort_by {α : Type} (le : α → α → Bool) : List α → List α
  | [] => []
  | x :: xs => insert_by le x (sort_by le xs)

/-- `sort_values(by="Confidence", ascending=False)` over the rows. -/
def sort_rows_by_conf_desc (m : Nat) (rows : List (List Cell)) :
    List (List Cell) :=
  sort_by (conf_le_desc m) rows

/-- The data the render pass reads: the two loaded frames and the
process-wide freshness state. -/
structure AppState where
  projections_data : Table
  results_data : Table
  freshness : FreshnessState
deriving DecidableEq

/-- Lines 119–127 of `run_streamlit_app` with the state made explicit:
the pass reads `projections_data`, computes the filtered frame and the
sorted frame as fresh values (pandas boolean selection and
`sort_values` return new frames), and writes nothing back. -/
def filter_sort_step (st : AppState) (player_filter : String)
    (metric_filter sportsbook_filter : List Cell) (lo hi : ℚ) :
    AppState × Except Unit (List (List Cell)) :=
  (st,
    match apply_filters st.projections_data player_filter metric_filter
        sportsbook_filter lo hi with
    | Except.error e => Except.error e
    | Except.ok filtered =>
      match colIdx? st.projections_data.header "Confidence" with
      | none => Except.error ()
      | some m => Except.ok (sort_rows_by_conf_desc m filtered))

/-- The name condition exactly as the spec words it, kept separate from
the source translation so the two can be compared: an empty substring
passes every row, and an absent/null name fails only non-empty
substrings. -/
def claim_name_passes (c : Cell) (pat : String) : Bool :=
  if pat.isEmpty then true
  else
    match c with
    | Cell.str s => containsCI s pat
    | _ => false

/-! ### Helper lemmas -/

theorem andMask_map {α : Type} (xs : List α) (f g : α → Bool) :
    andMask (xs.map f) (xs.map g) = xs.map (fun x => f x && g x) := by
  induction xs with
  | nil => rfl
  | cons a l ih => simp [andMask, List.zipWith] at ih ⊢

theorem selectRows_map {α : Type} (xs : List α) (f : α → Bool) :
    selectRows xs (xs.map f) = xs.filter f := by
  induction xs with
  | nil => rfl
  | cons a l ih =>
    cases h : f a <;> simp [selectRows, List.filter, h] at ih ⊢ <;> exact ih

theorem flatMap_pure_nat (l : List Nat) : l.flatMap (fun j => [j]) = l := by
  induction l with
  | nil => rfl
  | cons a t ih => simp_all [List.flatMap_cons]

theorem ends_char_step (c : Char) (pcs : List Char) (fuel : Nat)
    (s : List Char) (j : Nat) :
    (ends fuel (Regex.char c) s j).flatMap (fun k => (litEnd pcs s k).toList) =
      (litEnd (c :: pcs) s j).toList := by
  rcases hx : s[j]? with _ | x
  · simp [ends, litEnd, hx]
  · cases h : (x.toLower == c.toLower) <;> simp [ends, litEnd, hx, h]

theorem ends_charFold (pcs : List Char) (fuel : Nat) (s : List Char) :
    ∀ (acc : Regex) (i : Nat),
    ends fuel (pcs.foldl (fun a c => Regex.cat a (Regex.char c)) acc) s i =
      (ends fuel acc s i).flatMap (fun j => (litEnd pcs s j).toList) := by
  induction pcs with
  | nil =>
    intro acc i
    simp [litEnd, Option.toList, flatMap_pure_nat]
  | cons c rest ih =>
    intro acc i
    simp only [List.foldl_cons]
    rw [ih (Regex.cat acc (Regex.char c)) i]
    rw [show ends fuel (Regex.cat acc (Regex.char c)) s i =
      (ends fuel acc s i).flatMap (fun j => ends fuel (Regex.char c) s j) from rfl]
    rw [List.flatMap_assoc]
    simp only [ends_char_step]

theorem litEnd_isSome (pcs : List Char) (s : List Char) : ∀ i : Nat,
    (litEnd pcs s i).isSome =
      startsWith_chars ((s.drop i).map Char.toLower) (pcs.map Char.toLower) := by
  induction pcs with
  | nil => intro i; simp [litEnd, startsWith_chars]
  | cons c rest ih =>
    intro i
    rcases hx : s[i]? with _ | x
    · have hlen : s.length ≤ i := by
        by_contra hlt
        push_neg at hlt
        have h2 : s[i]? = some s[i] := List.getElem?_eq_some.mpr ⟨hlt, rfl⟩
        rw [hx] at h2
        cases h2
      have hd : s.drop i = [] := List.drop_eq_nil_of_le hlen
      simp [litEnd, hx, hd, startsWith_chars]
    · obtain ⟨hi, hxe⟩ := List.getElem?_eq_some.mp hx
      have hd : s.drop i = x :: s.drop (i + 1) := by
        rw [List.drop_eq_getElem_cons hi, hxe]
      cases h : (x.toLower == c.toLower) <;>
        simp [litEnd, hx, hd, startsWith_chars, h, ih]

theorem hasSubstr_eq_any (hay pat : List Char) :
    hasSubstr hay pat =
      (List.range (hay.length + 1)).any
        (fun i => startsWith_chars (hay.drop i) pat) := by
  induction hay with
  | nil => cases pat <;> simp [hasSubstr, startsWith_chars]
  | cons c t ih =>
    rw [show (c :: t).length + 1 = (t.length + 1) + 1 from rfl,
      List.range_succ_eq_map]
    simp only [List.any_cons, List.any_map, Function.comp_def,
      Nat.succ_eq_add_one, List.drop_succ_cons, List.drop_zero]
    rw [← ih]
    rfl

theorem regexSearch_lit (pcs scs : List Char) :
    regexSearch (pcs.foldl (fun a c => Regex.cat a (Regex.char c)) Regex.eps) scs =
      hasSubstr (scs.map Char.toLower) (pcs.map Char.toLower) := by
  have htl : ∀ o : Option Nat, (!o.toList.isEmpty) = o.isSome := by
    intro o
    cases o <;> rfl
  unfold regexSearch
  simp only [ends_charFold,
    show ∀ i : Nat, ends (scs.length + 1) Regex.eps scs i = [i] from fun _ => rfl,
    List.flatMap_cons, List.flatMap_nil, List.append_nil, htl, litEnd_isSome]
  rw [hasSubstr_eq_any]
  simp [List.map_drop]

theorem literalChar_neq (c : Char) (hc : isLiteralChar c = true) (d : Char)
    (hd : metaChars.contains d = true) : (c == d) = false := by
  rw [beq_eq_false_iff_ne]
  intro e
  subst e
  unfold isLiteralChar at hc
  rw [hd] at hc
  simp at hc

theorem parseAtom_lit (f depth : Nat) (c : Char) (rest : List Char)
    (hc : isLiteralChar c = true) :
    parseAtom (f + 1) depth (c :: rest) = Except.ok (Regex.char c, rest) := by
  simp [parseAtom,
    literalChar_neq c hc '(' rfl, literalChar_neq c hc '[' rfl,
    literalChar_neq c hc '.' rfl, literalChar_neq c hc '^' rfl,
    literalChar_neq c hc '$' rfl, literalChar_neq c hc '\\' rfl,
    literalChar_neq c hc '*' rfl, literalChar_neq c hc '+' rfl,
    literalChar_neq c hc '?' rfl]

theorem afterQuant_lit (r : Regex) (rest : List Char)
    (h : rest.all isLiteralChar = true) :
    afterQuant r rest = Except.ok (r, rest) := by
  cases rest with
  | nil => rfl
  | cons d rest2 =>
    have hd : isLiteralChar d = true := by
      simp only [List.all_cons, Bool.and_eq_true] at h
      exact h.1
    simp [afterQuant,
      literalChar_neq d hd '*' rfl, literalChar_neq d hd '+' rfl,
      literalChar_neq d hd '?' rfl, literalChar_neq d hd '{' rfl]

theorem parseSeq_lit (cs : List Char) : ∀ (fuel depth : Nat) (acc : Regex),
    cs.all isLiteralChar = true → cs.length + 1 ≤ fuel →
    parseSeq fuel depth cs acc =
      Except.ok (cs.foldl (fun a c => Regex.cat a (Regex.char c)) acc, []) := by
  induction cs with
  | nil =>
    intro fuel depth acc _ hf
    obtain ⟨f, rfl⟩ : ∃ f, fuel = f + 1 := ⟨fuel - 1, by omega⟩
    rfl
  | cons c rest ih =>
    intro fuel depth acc hlit hf
    obtain ⟨f, rfl⟩ : ∃ f, fuel = f + 1 := ⟨fuel - 1, by omega⟩
    simp only [List.all_cons, Bool.and_eq_true] at hlit
    obtain ⟨hc, hrest⟩ := hlit
    have hf2 : rest.length + 1 ≤ f := by
      simp only [List.length_cons] at hf
      omega
    obtain ⟨f2, rfl⟩ : ∃ f2, f = f2 + 1 := ⟨f - 1, by omega⟩
    rw [show parseSeq (f2 + 1 + 1) depth (c :: rest) acc =
        (if c == ')' || c == '|' then Except.ok (acc, c :: rest)
         else
           match parseAtom (f2 + 1) depth (c :: rest) with
           | Except.error e => Except.error e
           | Except.ok (r, rest2) =>
             match afterQuant r rest2 with
             | Except.error e => Except.error e
             | Except.ok (r2, rest3) =>
               parseSeq (f2 + 1) depth rest3 (Regex.cat acc r2)) from rfl]
    rw [show (c == ')' || c == '|') = false by
      rw [literalChar_neq c hc ')' rfl, literalChar_neq c hc '|' rfl]
      rfl]
    rw [if_neg (by simp)]
    rw [parseAtom_lit f2 depth c rest hc]
    dsimp only
    rw [afterQuant_lit (Regex.char c) rest hrest]
    dsimp only
    rw [ih (f2 + 1) depth (Regex.cat acc (Regex.char c)) hrest hf2]
    simp [List.foldl_cons]

theorem parseAlt_lit (cs : List Char) (fuel depth : Nat)
    (hlit : cs.all isLiteralChar = true) (hf : cs.length + 2 ≤ fuel) :
    parseAlt fuel depth cs =
      Except.ok (cs.foldl (fun a c => Regex.cat a (Regex.char c)) Regex.eps, []) := by
  obtain ⟨f, rfl⟩ : ∃ f, fuel = f + 1 := ⟨fuel - 1, by omega⟩
  rw [show parseAlt (f + 1) depth cs =
      (match parseSeq f depth cs Regex.eps with
       | Except.error e => Except.error e
       | Except.ok (r, rest) =>
         match rest with
         | '|' :: rest2 =>
           (match parseAlt f depth rest2 with
            | Except.error e => Except.error e
            | Except.ok (r2, rest3) => Except.ok (Regex.alt r r2, rest3))
         | _ => Except.ok (r, rest)) from rfl]
  rw [parseSeq_lit cs f depth Regex.eps hlit (by omega)]

theorem compileRegex_literal (pf : String) (h : isLiteralPat pf = true) :
    compileRegex pf =
      Except.ok (pf.toList.foldl (fun a c => Regex.cat a (Regex.char c))
        Regex.eps) := by
  unfold compileRegex
  rw [parseAlt_lit pf.toList (3 * pf.toList.length + 4) 0
    (by simpa [isLiteralPat] using h) (by omega)]

/-- Row-level shape of a successful `Confidence` coercion: only the cell
at the coerced index changes, and it changes by `coerce_cell`. -/
theorem coerce_row_spec (r : List Cell) : ∀ (i : Nat) (r2 : List Cell),
    coerce_row i r = Except.ok r2 →
    r2.length = r.length ∧ (∀ j, j ≠ i → cellAt r2 j = cellAt r j) ∧
    coerce_cell (cellAt r i) = Except.ok (cellAt r2 i) := by
  induction r with
  | nil =>
    intro i r2 h
    simp only [coerce_row] at h
    cases h
    exact ⟨rfl, fun j _ => rfl, rfl⟩
  | cons c cs ih =>
    intro i r2 h
    cases i with
    | zero =>
      simp only [coerce_row] at h
      cases hc : coerce_cell c with
      | error e => rw [hc] at h; cases h
      | ok c2 =>
        rw [hc] at h
        cases h
        refine ⟨rfl, fun j hj => ?_, hc⟩
        cases j with
        | zero => exact absurd rfl hj
        | succ n => rfl
    | succ n =>
      simp only [coerce_row] at h
      cases hr : coerce_row n cs with
      | error e => rw [hr] at h; cases h
      | ok cs2 =>
        rw [hr] at h
        cases h
        obtain ⟨hlen, hoth, hcell⟩ := ih n cs2 hr
        refine ⟨by simpa using hlen, fun j hj => ?_, hcell⟩
        cases j with
        | zero => rfl
        | succ m => exact hoth m (fun e => hj (by rw [e]))

/-- A successful `coerce_rows` relates input and output rows pointwise
by `coerce_row`. -/
theorem coerce_rows_spec (i : Nat) (rs : List (List Cell)) :
    ∀ rs2, coerce_rows i rs = Except.ok rs2 →
    List.Forall₂ (fun r r2 => coerce_row i r = Except.ok r2) rs rs2 := by
  induction rs with
  | nil =>
    intro rs2 h
    simp only [coerce_rows] at h
    cases h
    exact List.Forall₂.nil
  | cons r rest ih =>
    intro rs2 h
    simp only [coerce_rows] at h
    cases hr : coerce_row i r with
    | error e => rw [hr] at h; cases h
    | ok r2 =>
      rw [hr] at h
      cases hrest : coerce_rows i rest with
      | error e => rw [hrest] at h; cases h
      | ok rest2 =>
        rw [hrest] at h
        cases h
        exact List.Forall₂.cons hr (ih rest2 hrest)

/-! ### Claims -/

/-- Claim C2 (corrected), counterexample: on the empty results table the
aggregator returns `None`, not the summary `{wins 0, losses 0, pushes 0,
winPct 0}` the claim states. -/
theorem summarize_empty_cex :
    calculate_win_loss_summary ⟨[], []⟩ = Except.ok none ∧
    calculate_win_loss_summary ⟨[], []⟩ ≠ Except.ok (some ⟨0, 0, 0, 0⟩) := by
  with_unfolding_all decide

/-- Claim C2 (corrected), amended: applied to an empty results table
(no rows), the aggregator returns no summary at all (`None`), which the
caller treats as "nothing to display". -/
theorem summarize_empty (h : List String) :
    calculate_win_loss_summary ⟨h, []⟩ = Except.ok none := rfl

/-- Claim C5 (confirmed): the refresh updates the freshness state only
when the fingerprint differs from the stored one — in that case both
fields are set — and otherwise leaves the state (and returned
timestamp) unchanged; a second call on the unchanged table returns the
same timestamp and state; and the timestamp never changes without the
fingerprint changing. -/
theorem refresh_timestamp_invariants (t : Table) (now now2 : String)
    (st : FreshnessState) :
    (st.hash = some (calculate_data_hash t) →
      refresh_timestamp t now st = (st.timestamp, st)) ∧
    (st.hash ≠ some (calculate_data_hash t) →
      refresh_timestamp t now st =
        (some now, ⟨some (calculate_data_hash t), some now⟩)) ∧
    refresh_timestamp t now2 (refresh_timestamp t now st).2 =
      ((refresh_timestamp t now st).1, (refresh_timestamp t now st).2) ∧
    ((refresh_timestamp t now st).2.timestamp ≠ st.timestamp →
      (refresh_timestamp t now st).2.hash ≠ st.hash) := by
  by_cases h : st.hash = some (calculate_data_hash t)
  · constructor
    · intro _
      simp [refresh_timestamp, h]
    constructor
    · intro hne
      exact absurd h hne
    constructor
    · simp [refresh_timestamp, h]
    · intro hts
      simp [refresh_timestamp, h] at hts
  · constructor
    · intro he
      exact absurd he h
    constructor
    · intro _
      simp [refresh_timestamp, h]
    constructor
    · simp [refresh_timestamp, h]
    · intro _
      simp [refresh_timestamp, h]
      intro he
      exact h he.symm

/-- Witness for C5 at a concrete table and the initial state: the
stored fingerprint (`None`) differs, so both fields are set. -/
theorem refresh_timestamp_invariants_witness :
    (⟨none, none⟩ : FreshnessState).hash ≠
      some (calculate_data_hash ⟨["A"], [[Cell.str "x"]]⟩) ∧
    refresh_timestamp ⟨["A"], [[Cell.str "x"]]⟩ "2024-01-01 01:00:00 AM"
        ⟨none, none⟩ =
      (some "2024-01-01 01:00:00 AM",
       ⟨some (calculate_data_hash ⟨["A"], [[Cell.str "x"]]⟩),
        some "2024-01-01 01:00:00 AM"⟩) :=
  ⟨by simp,
   (refresh_timestamp_invariants ⟨["A"], [[Cell.str "x"]]⟩
      "2024-01-01 01:00:00 AM" "later" ⟨none, none⟩).2.1 (by simp)⟩

/-- Claim C7 (confirmed): a missing input file is handled at the loader
boundary — both loaders return an empty table (with the `None`
timestamp as the projections loader's not-present signal) and the
freshness state untouched, never an error — and it is the only
recognized failure: a present file whose `Confidence` strings do not
parse propagates an error instead of being converted. -/
theorem missing_file_handling (now : String) (st : FreshnessState) :
    load_projections_data none now st = Except.ok ((⟨[], []⟩, none), st) ∧
    load_results_data none = ⟨[], []⟩ ∧
    load_projections_data (some ⟨["Confidence"], [[Cell.str "abc"]]⟩) now st =
      Except.error () := ⟨rfl, rfl, rfl⟩

/-- Claim C9 (confirmed): the filter/sort pass of the render function
reads the loaded frames and returns its result as a fresh value; the
application state — in particular the input projections table — is
returned unchanged (in the source, boolean selection and `sort_values`
produce new frames bound to new names; nothing is written back). -/
theorem filter_sort_no_mutation (st : AppState) (pf : String)
    (mf sf : List Cell) (lo hi : ℚ) :
    (filter_sort_step st pf mf sf lo hi).1 = st := rfl

/-- Claim C1 (corrected), counterexample: the claim quantifies over
every results table, but on the empty table the aggregator returns
`None` instead of the zero-count summary with `winPct = 0` the claim's
formula prescribes. -/
theorem summarize_counts_cex :
    calculate_win_loss_summary ⟨["Result"], []⟩ = Except.ok none ∧
    calculate_win_loss_summary ⟨["Result"], []⟩ ≠
      Except.ok (some ⟨0, 0, 0, 0⟩) := by
  with_unfolding_all decide

/-- Claim C1 (corrected), amended: for every NON-empty results table
with a `Result` column, the aggregator counts exactly the rows whose
`Result` value is the string `Win`, `Loss` or `Push` (any other value
is excluded from all three counts), and returns
`winPct = 100 * wins / (wins + losses + pushes)`, defined as `0` when
that total is `0`. -/
theorem summarize_counts (t : Table) (i : Nat)
    (hne : t.rows ≠ []) (hcol : colIdx? t.header "Result" = some i) :
    calculate_win_loss_summary t = Except.ok (some
      { wins := (t.rows.map (fun r => cellAt r i)).countP
          (fun c => c == Cell.str "Win"),
        losses := (t.rows.map (fun r => cellAt r i)).countP
          (fun c => c == Cell.str "Loss"),
        pushes := (t.rows.map (fun r => cellAt r i)).countP
          (fun c => c == Cell.str "Push"),
        winPct :=
          if ((t.rows.map (fun r => cellAt r i)).countP (fun c => c == Cell.str "Win") +
              (t.rows.map (fun r => cellAt r i)).countP (fun c => c == Cell.str "Loss") +
              (t.rows.map (fun r => cellAt r i)).countP (fun c => c == Cell.str "Push")) = 0
          then 0
          else 100 * ((t.rows.map (fun r => cellAt r i)).countP (fun c => c == Cell.str "Win") : ℚ) /
            ((((t.rows.map (fun r => cellAt r i)).countP (fun c => c == Cell.str "Win") +
               (t.rows.map (fun r => cellAt r i)).countP (fun c => c == Cell.str "Loss") +
               (t.rows.map (fun r => cellAt r i)).countP (fun c => c == Cell.str "Push") : Nat)) : ℚ) }) := by
  have h1 : t.rows.isEmpty = false := by
    cases hr : t.rows with
    | nil => exact absurd hr hne
    | cons a l => rfl
  unfold calculate_win_loss_summary
  rw [h1, hcol]
  simp only [Bool.false_eq_true, if_false]
  set w := (t.rows.map (fun r => cellAt r i)).countP (fun c => c == Cell.str "Win") with hw
  set l := (t.rows.map (fun r => cellAt r i)).countP (fun c => c == Cell.str "Loss") with hl
  set p := (t.rows.map (fun r => cellAt r i)).countP (fun c => c == Cell.str "Push") with hp
  have hpct : (if 0 < w + l + p then ((w:ℚ)/(((w+l+p : Nat)):ℚ))*100 else 0) =
      (if w + l + p = 0 then 0 else 100*(w:ℚ)/(((w+l+p : Nat)):ℚ)) := by
    by_cases h0 : w + l + p = 0
    · simp [h0]
    · rw [if_neg h0, if_pos (Nat.pos_of_ne_zero h0)]
      push_cast
      ring
  rw [← hpct]

/-- Witness for C1 on a concrete 1 Win / 1 Loss table: the summary is
`{1, 1, 0, 50}`. -/
theorem summarize_counts_witness :
    ((⟨["Result"], [[Cell.str "Win"], [Cell.str "Loss"]]⟩ : Table).rows ≠ [] ∧
      colIdx? ["Result"] "Result" = some 0) ∧
    calculate_win_loss_summary ⟨["Result"], [[Cell.str "Win"], [Cell.str "Loss"]]⟩ =
      Except.ok (some ⟨1, 1, 0, 50⟩) :=
  ⟨⟨by decide, by decide⟩, by
    rw [summarize_counts ⟨["Result"], [[Cell.str "Win"], [Cell.str "Loss"]]⟩ 0
      (by decide) (by decide)]
    with_unfolding_all decide⟩

/-- Claim C10 (confirmed): `Result` values are matched by case-sensitive
exact string equality — appending a row whose `Result` is any string
other than exactly `Win`, `Loss` or `Push` (for instance a case variant
like `win` or `WIN`, or a value with surrounding whitespace) leaves the
whole summary unchanged. -/
theorem result_match_case_sensitive (rows : List (List Cell)) (s : String)
    (h1 : s ≠ "Win") (h2 : s ≠ "Loss") (h3 : s ≠ "Push") (h4 : rows ≠ []) :
    calculate_win_loss_summary ⟨["Result"], rows ++ [[Cell.str s]]⟩ =
      calculate_win_loss_summary ⟨["Result"], rows⟩ := by
  have e0 : colIdx? ["Result"] "Result" = some 0 := rfl
  have hia : (rows ++ [[Cell.str s]]).isEmpty = false := by simp
  have hi4 : rows.isEmpty = false := by
    cases hr : rows with
    | nil => exact absurd hr h4
    | cons a l => rfl
  simp only [calculate_win_loss_summary, e0, hia, hi4, Bool.false_eq_true, if_false,
    List.map_append, List.countP_append, List.map_cons, List.map_nil,
    List.countP_cons, List.countP_nil, cellAt, List.getD]
  simp [h1, h2, h3]

/-- Witness for C10: a `Result` of `win` (lowercase) counts as nothing
next to a proper `Win`. -/
theorem result_match_case_sensitive_witness :
    (("win" : String) ≠ "Win" ∧ ("win" : String) ≠ "Loss" ∧
      ("win" : String) ≠ "Push" ∧ ([[Cell.str "Win"]] : List (List Cell)) ≠ []) ∧
    calculate_win_loss_summary ⟨["Result"], [[Cell.str "Win"], [Cell.str "win"]]⟩ =
      calculate_win_loss_summary ⟨["Result"], [[Cell.str "Win"]]⟩ :=
  ⟨⟨by decide, by decide, by decide, by decide⟩,
   result_match_case_sensitive [[Cell.str "Win"]] "win" (by decide) (by decide)
     (by decide) (by decide)⟩

/-- Claim C3 (corrected), counterexample.  Three divergences from the
claim as stated, all on in-scope free-text search input: (1) a row
whose `Player Name` is absent (`null`) satisfies all four of the
claim's conditions under the empty search substring — the claim says
the empty substring passes every row and a null name fails only
NON-empty substrings — yet the filter drops it (`na=False` maps a null
name to `False` for every pattern); (2) `str.contains` reads the
pattern as a regular expression, so the pattern `.` keeps a row named
`Bob` although `Bob` does not contain the substring `.`; (3) the
pattern `(` does not filter at all — it raises the uncaught
`re.error`. -/
theorem apply_filters_cex :
    ((claim_name_passes Cell.null "" = true ∧
      List.contains [Cell.str "Points"] (Cell.str "Points") = true ∧
      List.contains [Cell.str "DraftKings"] (Cell.str "DraftKings") = true ∧
      (0 : ℚ) ≤ 50 ∧ (50 : ℚ) ≤ 100) ∧
     apply_filters ⟨["Player Name", "Metric", "Bookmaker", "Confidence"],
         [[Cell.null, Cell.str "Points", Cell.str "DraftKings", Cell.num 50]]⟩
       "" [Cell.str "Points"] [Cell.str "DraftKings"] 0 100 = Except.ok []) ∧
    (claim_name_passes (Cell.str "Bob") "." = false ∧
     apply_filters ⟨["Player Name", "Metric", "Bookmaker", "Confidence"],
         [[Cell.str "Bob", Cell.str "Points", Cell.str "DraftKings", Cell.num 50]]⟩
       "." [Cell.str "Points"] [Cell.str "DraftKings"] 0 100 =
       Except.ok [[Cell.str "Bob", Cell.str "Points", Cell.str "DraftKings",
         Cell.num 50]]) ∧
    apply_filters ⟨["Player Name", "Metric", "Bookmaker", "Confidence"],
        [[Cell.str "Bob", Cell.str "Points", Cell.str "DraftKings", Cell.num 50]]⟩
      "(" [Cell.str "Points"] [Cell.str "DraftKings"] 0 100 = Except.error () := by
  with_unfolding_all decide

/-- Claim C3 (corrected), amended: for every search pattern that is
literal text — free of regex metacharacters; `str.contains` reads the
pattern as a regular expression, so metacharacter patterns filter by
regex semantics and an invalid pattern raises `re.error` instead of
filtering — a row is kept if and only if all four conditions hold: the
`Player Name` cell is a present string containing the pattern
case-insensitively (the empty pattern passes every row whose name is a
present string; a row with an absent/null name is excluded for every
pattern, the empty one included), the `Metric` is a member of the
allowed metrics, the `Bookmaker` is a member of the allowed
bookmakers, and the `Confidence` is numeric and lies within the
inclusive range. -/
theorem apply_filters_spec (t : Table) (pf : String) (mf sf : List Cell)
    (lo hi : ℚ) (i j k m : Nat)
    (hlit : isLiteralPat pf = true)
    (hc1 : colIdx? t.header "Player Name" = some i)
    (hc2 : colIdx? t.header "Metric" = some j)
    (hc3 : colIdx? t.header "Bookmaker" = some k)
    (hc4 : colIdx? t.header "Confidence" = some m) :
    apply_filters t pf mf sf lo hi = Except.ok (t.rows.filter (fun r =>
      (((match cellAt r i with
         | Cell.str s => containsCI s pf
         | _ => false) &&
        mf.contains (cellAt r j)) &&
       sf.contains (cellAt r k)) &&
      (match cellAt r m with
       | Cell.num q => decide (lo ≤ q) && decide (q ≤ hi)
       | _ => false))) := by
  simp only [apply_filters, hc1, hc2, hc3, hc4, compileRegex_literal pf hlit,
    colCells, str_contains_mask, isin_mask, between_mask, List.map_map,
    andMask_map, selectRows_map, Function.comp]
  simp only [regexSearch_lit, containsCI]

/-- Witness for C3 (amended) on concrete data: the literal
case-insensitive pattern `jam` keeps `LeBron James` and drops
`Kevin Durant`. -/
theorem apply_filters_spec_witness :
    (isLiteralPat "jam" = true ∧
     colIdx? ["Player Name", "Metric", "Bookmaker", "Confidence"] "Player Name" = some 0 ∧
     colIdx? ["Player Name", "Metric", "Bookmaker", "Confidence"] "Metric" = some 1 ∧
     colIdx? ["Player Name", "Metric", "Bookmaker", "Confidence"] "Bookmaker" = some 2 ∧
     colIdx? ["Player Name", "Metric", "Bookmaker", "Confidence"] "Confidence" = some 3) ∧
    apply_filters ⟨["Player Name", "Metric", "Bookmaker", "Confidence"],
        [[Cell.str "LeBron James", Cell.str "Points", Cell.str "DraftKings", Cell.num 88],
         [Cell.str "Kevin Durant", Cell.str "Points", Cell.str "DraftKings", Cell.num 90]]⟩
      "jam" [Cell.str "Points"] [Cell.str "DraftKings"] 0 100 =
      Except.ok [[Cell.str "LeBron James", Cell.str "Points", Cell.str "DraftKings", Cell.num 88]] :=
  ⟨⟨by decide, by decide, by decide, by decide, by decide⟩, by
    rw [apply_filters_spec _ "jam" [Cell.str "Points"] [Cell.str "DraftKings"] 0 100 0 1 2 3
      (by decide) (by decide) (by decide) (by decide) (by decide)]
    with_unfolding_all decide⟩

/-- Claim C8 (corrected), counterexample: the claim says every
percentage-formatted column is parsed, but the loader touches only the
column named `Confidence` — here a second `%`-suffixed column `Edge`
comes through as the unparsed string `10%`. -/
theorem coerce_confidence_cex :
    coerce_confidence ⟨["Confidence", "Edge"], [[Cell.str "50%", Cell.str "10%"]]⟩ =
      Except.ok ⟨["Confidence", "Edge"], [[Cell.num 50, Cell.str "10%"]]⟩ ∧
    Cell.str "10%" ≠ Cell.num 10 := by
  with_unfolding_all decide

/-- Claim C8 (corrected), amended: the loader parses only the column
named `Confidence` (each of its string cells has trailing `%`
characters stripped and is converted to a number); every other cell —
including cells of other percentage-formatted columns — passes through
unchanged, and no other transformation occurs. -/
theorem coerce_confidence_only (t : Table) (i : Nat) (t2 : Table)
    (hcol : colIdx? t.header "Confidence" = some i)
    (hok : coerce_confidence t = Except.ok t2) :
    t2.header = t.header ∧
    List.Forall₂ (fun r r2 =>
      r2.length = r.length ∧ (∀ j, j ≠ i → cellAt r2 j = cellAt r j) ∧
      coerce_cell (cellAt r i) = Except.ok (cellAt r2 i)) t.rows t2.rows := by
  unfold coerce_confidence at hok
  simp only [hcol] at hok
  cases hr : coerce_rows i t.rows with
  | error e => exact Except.noConfusion (hr ▸ hok)
  | ok rs2 =>
    simp only [hr] at hok
    cases hok
    refine ⟨rfl, ?_⟩
    exact (coerce_rows_spec i t.rows rs2 hr).imp
      (fun a b hab => coerce_row_spec a i b hab)

/-- Witness for C8 (amended): the concrete cell `77%` becomes the
number `77` and nothing else changes. -/
theorem coerce_confidence_only_witness :
    (colIdx? ["Confidence"] "Confidence" = some 0 ∧
     coerce_confidence ⟨["Confidence"], [[Cell.str "77%"]]⟩ =
       Except.ok ⟨["Confidence"], [[Cell.num 77]]⟩) ∧
    ((⟨["Confidence"], [[Cell.num 77]]⟩ : Table).header =
        (⟨["Confidence"], [[Cell.str "77%"]]⟩ : Table).header ∧
     List.Forall₂ (fun r r2 =>
       r2.length = r.length ∧ (∀ j, j ≠ 0 → cellAt r2 j = cellAt r j) ∧
       coerce_cell (cellAt r 0) = Except.ok (cellAt r2 0))
       (⟨["Confidence"], [[Cell.str "77%"]]⟩ : Table).rows
       (⟨["Confidence"], [[Cell.num 77]]⟩ : Table).rows) :=
  ⟨⟨by decide, by with_unfolding_all decide⟩,
   coerce_confidence_only ⟨["Confidence"], [[Cell.str "77%"]]⟩ 0
     ⟨["Confidence"], [[Cell.num 77]]⟩ (by decide) (by with_unfolding_all decide)⟩

/-- The serialization underneath the fingerprint distinguishes a
concrete reordered pair of tables: the two CSV strings differ.  (The
md5 layer on top admits no universal non-collision theorem, which is
why the full order-sensitivity property of the fingerprint is not
settled here.) -/
theorem data_string_order_example :
    data_string ⟨["A"], [[Cell.str "x"], [Cell.str "y"]]⟩ ≠
      data_string ⟨["A"], [[Cell.str "y"], [Cell.str "x"]]⟩ := by decide
